import Mathlib

/-!
Verification of the nseEventBoard data-fetching and data-viewing scripts.

This file gives a shallow embedding, in Lean, of the parts of the
repository that carry algorithmic content:

* the cell-formatting and filtering functions of the viewer scripts
  (`view_announcements_data.py`, `view_latest_data.py`, `view_crd_data.py`);
* the CSV export performed by the interactive menus (pandas
  `DataFrame(data)` followed by per-column flattening and `to_csv`);
* the paginated aggregation loop `fetch_all_pages`, the per-endpoint
  fetchers and the summary builder of `fetch_all_data.py`.

Python values appearing in record cells are modelled by `CellValue`
(JSON scalars plus the structured text/type/link mappings produced by
the scraper).  Python dictionaries are modelled as association lists,
exceptions as `Except`, and the network as a function from the
requested page number to a response.  The `while` loop of
`fetch_all_pages` is modelled with explicit fuel; all theorems about it
assume enough fuel for the run they describe.
-/

namespace NSE

/-! ### Python string primitives -/

/-- Python `str.lower()`: lower-case every character. -/
def pyLower (s : String) : String := String.mk (s.data.map Char.toLower)

/-- Prefix test on character lists (Python string matching helper). -/
def listPrefix : List Char → List Char → Bool
  | [], _ => true
  | _ :: _, [] => false
  | a :: as, b :: bs => a == b && listPrefix as bs

/-- Infix (substring) test on character lists. -/
def listInfix : List Char → List Char → Bool
  | needle, [] => needle.isEmpty
  | needle, h :: t => listPrefix needle (h :: t) || listInfix needle t

/-- Python `needle in hay` on strings: substring containment. -/
def pyIn (needle hay : String) : Bool := listInfix needle.data hay.data

/-- Python `repr` of a string: wrap in single quotes (character 39). -/
def quoteStr (s : String) : String :=
  String.mk (Char.ofNat 39 :: s.data ++ [Char.ofNat 39])

/-! ### Cell values

Record cells in the scraped JSON are either scalars or structured
`{text, type, link}` mappings.  `pydict` keeps the three optional keys
of the structured form; `pynone` is Python `None`. -/

inductive CellValue where
  | pynone
  | pystr (s : String)
  | pyint (n : Int)
  | pydict (text : Option String) (ty : Option String) (link : Option String)
deriving DecidableEq

/-- Python `str()` of one of the structured mappings, keys in insertion
order text, type, link (e.g. the empty mapping prints as `{}`). -/
def pyDictRepr (text ty link : Option String) : String :=
  let entries :=
    (match text with
     | some t => [quoteStr "text" ++ ": " ++ quoteStr t]
     | none => []) ++
    (match ty with
     | some t => [quoteStr "type" ++ ": " ++ quoteStr t]
     | none => []) ++
    (match link with
     | some t => [quoteStr "link" ++ ": " ++ quoteStr t]
     | none => [])
  "\x7b" ++ String.intercalate ", " entries ++ "\x7d"

/-- Python `str(value)` for a cell value. -/
def pyStrOf : CellValue → String
  | .pynone => "None"
  | .pystr s => s
  | .pyint n => toString n
  | .pydict t ty l => pyDictRepr t ty l

/-- Python truthiness of a cell value. -/
def pyTruthy : CellValue → Bool
  | .pynone => false
  | .pystr s => !s.isEmpty
  | .pyint n => n != 0
  | .pydict t ty l => t.isSome || ty.isSome || l.isSome

/-- `format_cell` from `view_announcements_data.py` (lines 40-53).
A mapping with a `text` key yields its text, suffixed ` [PDF]` when
`type` is `pdf` and ` [XBRL]` when `type` is `xbrl`; a mapping without
a `text` key yields `str(value)`; any other value yields `str(value)`
if it is truthy and the empty string otherwise.  The `Except` codomain
records that no branch of the Python function can raise. -/
def format_cell : CellValue → Except String String
  | .pydict text ty link =>
    match text with
    | some t =>
      if ty = some "pdf" then .ok (t ++ " [PDF]")
      else if ty = some "xbrl" then .ok (t ++ " [XBRL]")
      else .ok t
    | none => .ok (pyDictRepr none ty link)
  | v => .ok (if pyTruthy v then pyStrOf v else "")

/-- `format_cell` from `view_latest_data.py` (lines 38-45) and
`view_crd_data.py` (lines 37-43): as above but with no type suffixing. -/
def format_cell_ev : CellValue → Except String String
  | .pydict text ty link =>
    match text with
    | some t => .ok t
    | none => .ok (pyDictRepr none ty link)
  | v => .ok (if pyTruthy v then pyStrOf v else "")

/-! ### Records and filters -/

/-- A scraped record: a Python dict from field name to cell value. -/
abbrev Record := List (String × CellValue)

/-- Python `record.get(key, default)`. -/
def pyGet (r : Record) (key : String) (dflt : CellValue) : CellValue :=
  (List.lookup key r).getD dflt

/-- The per-record test of `filter_by_subject`
(`view_announcements_data.py` lines 102-109): the `SUBJECT` value,
defaulting to `''`, must be a string and contain the lower-cased
keyword as a substring of its lower-cased form. -/
def subjectTest (r : Record) (keyword : String) : Bool :=
  match pyGet r "SUBJECT" (.pystr "") with
  | .pystr s => pyIn (pyLower keyword) (pyLower s)
  | _ => false

/-- `filter_by_subject` from `view_announcements_data.py`: keep, in
order, the records passing `subjectTest`. -/
def filter_by_subject : List Record → String → List Record
  | [], _ => []
  | r :: rest, keyword =>
    if subjectTest r keyword then r :: filter_by_subject rest keyword
    else filter_by_subject rest keyword

/-- The per-record test of `filter_by_company` in `view_crd_data.py`
(lines 87-96): the `COMPANY NAME` value, defaulting to `''`, is first
replaced by its `text` entry (default `''`) when it is a mapping; the
result must be a string containing the lower-cased keyword. -/
def crdCompanyTest (r : Record) (keyword : String) : Bool :=
  match pyGet r "COMPANY NAME" (.pystr "") with
  | .pydict t _ _ => pyIn (pyLower keyword) (pyLower (t.getD ""))
  | .pystr s => pyIn (pyLower keyword) (pyLower s)
  | _ => false

/-- `filter_by_company` from `view_crd_data.py`. -/
def crd_filter_by_company : List Record → String → List Record
  | [], _ => []
  | r :: rest, keyword =>
    if crdCompanyTest r keyword then r :: crd_filter_by_company rest keyword
    else crd_filter_by_company rest keyword

/-! ### The aggregation loop of `fetch_all_data.py`

`fetch_all_pages(endpoint, params)` mutates the caller's `params` dict
(`params['page']`, `params['per_page'] = 1000`), issues one GET per
page, and accumulates records until `page > total_pages` or the first
failure.  The query parameters are modelled by `Params` (the mutable
`page`/`per_page` slots plus the caller-supplied entries); a remote
source is a function from the requested page number to a response. -/

/-- The query-parameter dict threaded through the loop.  `page` and
`per_page` are `none` until the loop first writes them. -/
structure Params where
  page : Option Nat
  per_page : Option Nat
  extra : List (String × String)
deriving DecidableEq

/-- The caller-side `params = {}` default. -/
def Params.empty : Params := ⟨none, none, []⟩

/-- A `params` dict holding one endpoint-specific selector. -/
def Params.single (k v : String) : Params := ⟨none, none, [(k, v)]⟩

/-- The opaque `metadata` object of a response. -/
abbrev Metadata := List (String × String)

/-- The `pagination` object of a response; only `total_pages` is read
(`pagination.get('total_pages', 1)`). -/
structure PagInfo where
  total_pages : Option Nat
deriving DecidableEq

/-- The parsed JSON body of a 200 response, with every key optional as
in the Python `data.get(...)` accesses. -/
structure ApiBody where
  success : Option Bool
  error : Option String
  metadata : Option Metadata
  pagination : Option PagInfo
  data : Option (List Record)
deriving DecidableEq

/-- What the remote source does for one page request: raise inside
`requests.get`/`response.json()` (`exc`), or deliver a status code with
a parsed body (the body is only consulted when the status is 200). -/
inductive ServerResp where
  | exc
  | http (status : Nat) (body : ApiBody)
deriving DecidableEq

/-- A remote source, as seen by the loop: response per page number. -/
abbrev Server := Nat → ServerResp

/-- `data.get('success')` truthiness. -/
def bodySuccess (b : ApiBody) : Bool := b.success = some true

/-- The loop state of `fetch_all_pages`, plus `log`: the trace of page
numbers passed to `requests.get`, in request order. -/
structure LoopSt where
  all_data : List Record
  page : Nat
  total_pages : Nat
  metadata : Metadata
  params : Params
  log : List Nat
deriving DecidableEq

/-- The state at entry of the `while` loop (`params0` is the caller's
dict). -/
def initSt (params0 : Params) : LoopSt :=
  { all_data := [], page := 1, total_pages := 1, metadata := [],
    params := params0, log := [] }

/-- The `while page <= total_pages` loop of `fetch_all_pages`
(`fetch_all_data.py` lines 52-90), with fuel bounding the number of
iterations.  Each iteration writes `page`/`per_page` into the shared
`params`, requests the page, and either breaks (exception, non-200
status, falsy `success`) or re-reads `total_pages`, extends the
accumulator and increments `page`. -/
def fetchLoop (server : Server) : Nat → LoopSt → LoopSt
  | 0, st => st
  | fuel + 1, st =>
    if st.page ≤ st.total_pages then
      let p : Params := { st.params with page := some st.page, per_page := some 1000 }
      let lg : List Nat := st.log ++ [st.page]
      match server st.page with
      | .exc => { st with params := p, log := lg }
      | .http status body =>
        if status ≠ 200 then { st with params := p, log := lg }
        else if ¬ bodySuccess body then { st with params := p, log := lg }
        else
          fetchLoop server fuel
            { all_data := st.all_data ++ body.data.getD [],
              page := st.page + 1,
              total_pages := ((body.pagination.getD ⟨none⟩).total_pages).getD 1,
              metadata := body.metadata.getD [],
              params := p,
              log := lg }
    else st

/-- A value in the dict returned by `fetch_all_pages`. -/
inductive RVal where
  | meta (m : Metadata)
  | nat (n : Nat)
  | str (s : String)
  | params (p : Params)
  | records (rs : List Record)
deriving DecidableEq

/-- The dict type returned by `fetch_all_pages` and consumed by
`save_to_json` / `create_summary`. -/
abbrev Dict := List (String × RVal)

/-- The output of one `fetch_all_pages` call: the returned dict plus
the request trace of the run. -/
structure FetchOut where
  dict : Dict
  trace : List Nat
deriving DecidableEq

/-- `fetch_all_pages` (`fetch_all_data.py` lines 31-99): run the loop
from the initial state and assemble the returned dict literal, whose
`params` entry is the loop's (mutated) parameter dict.  `now` stands
for `datetime.now().isoformat()`. -/
def fetch_all_pages (server : Server) (endpoint : String) (params0 : Params)
    (fuel : Nat) (now : String) : FetchOut :=
  let st := fetchLoop server fuel (initSt params0)
  { dict :=
      [("metadata", .meta st.metadata),
       ("total_records", .nat st.all_data.length),
       ("fetched_at", .str now),
       ("source", .str endpoint),
       ("params", .params st.params),
       ("data", .records st.all_data)],
    trace := st.log }

/-- `data['total_records']` read from a returned dict. -/
def dictTotalRecords (d : Dict) : Nat :=
  match List.lookup "total_records" d with
  | some (.nat n) => n
  | _ => 0

/-- `data['data']` read from a returned dict. -/
def dictData (d : Dict) : List Record :=
  match List.lookup "data" d with
  | some (.records rs) => rs
  | _ => []

/-! ### Per-endpoint fetchers and their file writes

`save_to_json(data, filename)` is the only persistence primitive; a
run's writes are modelled as the list of `(filename, dict)` pairs
passed to it, in call order. -/

/-- One `save_to_json` call. -/
abbrev Write := String × Dict

/-- `fetch_event_calendar` (`fetch_all_data.py` lines 110-118): fetch
`/event-calendar` and save unconditionally. -/
def fetch_event_calendar (server : Server) (fuel : Nat) (now : String) :
    Dict × List Write :=
  let d := (fetch_all_pages server "/event-calendar" Params.empty fuel now).dict
  (d, [("event_calendar_all.json", d)])

/-- The loop body shared by `fetch_announcements` and
`fetch_credit_rating`: fetch one market's dataset `f market`, and save
it under `mk market` and record it only when `total_records > 0`. -/
def marketStep (f : String → Dict) (mk : String → String)
    (acc : List (String × Dict) × List Write) (market : String) :
    List (String × Dict) × List Write :=
  let d := f market
  if dictTotalRecords d > 0 then
    (acc.1 ++ [(market, d)], acc.2 ++ [(mk market, d)])
  else acc

/-- `fetch_announcements` (`fetch_all_data.py` lines 121-140): fetch
`/announcements` for the four markets; save and record only the
markets with `total_records > 0`. -/
def fetch_announcements (servers : String → Server) (fuel : Nat) (now : String) :
    List (String × Dict) × List Write :=
  (["equity", "sme", "debt", "mf"]).foldl
    (marketStep
      (fun market => (fetch_all_pages (servers market) "/announcements"
        (Params.single "market" market) fuel now).dict)
      (fun market => "announcements_" ++ market ++ "_all.json"))
    ([], [])

/-- `fetch_crd` (`fetch_all_data.py` lines 143-151): fetch `/crd` and
save unconditionally. -/
def fetch_crd (server : Server) (fuel : Nat) (now : String) :
    Dict × List Write :=
  let d := (fetch_all_pages server "/crd" Params.empty fuel now).dict
  (d, [("crd_all.json", d)])

/-- `fetch_credit_rating` (`fetch_all_data.py` lines 154-173): fetch
`/credit-rating` for two markets; save and record only the markets
with `total_records > 0`. -/
def fetch_credit_rating (servers : String → Server) (fuel : Nat) (now : String) :
    List (String × Dict) × List Write :=
  (["equity", "sme"]).foldl
    (marketStep
      (fun market => (fetch_all_pages (servers market) "/credit-rating"
        (Params.single "market" market) fuel now).dict)
      (fun market => "credit_rating_" ++ market ++ "_all.json"))
    ([], [])

/-! ### The summary builder -/

/-- One `summary['datasets']` entry: `{records, file}`. -/
structure SumEntry where
  records : Nat
  file : String
deriving DecidableEq

/-- The summary dict built by `create_summary`. -/
structure Summary where
  fetch_timestamp : String
  api_url : String
  total_files : Nat
  total_records : Nat
  datasets : List (String × SumEntry)
deriving DecidableEq

/-- The `results` mapping assembled by `main`: the keys
`event_calendar` and `crd` hold one dataset dict each, `announcements`
and `credit_rating` hold a market-keyed mapping of dataset dicts; a
key a prior step did not produce is absent. -/
structure RunResults where
  event_calendar : Option Dict
  announcements : Option (List (String × Dict))
  crd : Option Dict
  credit_rating : Option (List (String × Dict))

/-- Add one `{records, file}` entry to a summary under construction,
bumping the running totals, as each block of `create_summary` does. -/
def addEntry (s : Summary) (name : String) (recs : Nat) (file : String) : Summary :=
  { s with
    datasets := s.datasets ++ [(name, ⟨recs, file⟩)],
    total_records := s.total_records + recs,
    total_files := s.total_files + 1 }

/-- The per-market block of `create_summary`: one
`summary['datasets'][f'<pre><market>']` entry per market of the group,
each bumping the running totals. -/
def addGroup (pre : String) (l : List (String × Dict)) (s : Summary) : Summary :=
  l.foldl (fun s md =>
    addEntry s (pre ++ md.1) (dictTotalRecords md.2)
      (pre ++ md.1 ++ "_all.json")) s

/-- `create_summary` (`fetch_all_data.py` lines 209-262): fold the
present datasets into the summary in the fixed order event calendar,
announcements, CRD, credit rating. `now` stands for
`datetime.now().isoformat()` and `baseUrl` for `BASE_URL`. -/
def create_summary (now baseUrl : String) (r : RunResults) : Summary :=
  let s0 : Summary :=
    { fetch_timestamp := now, api_url := baseUrl,
      total_files := 0, total_records := 0, datasets := [] }
  let s1 := match r.event_calendar with
    | none => s0
    | some d => addEntry s0 "event_calendar" (dictTotalRecords d) "event_calendar_all.json"
  let s2 := match r.announcements with
    | none => s1
    | some l => addGroup "announcements_" l s1
  let s3 := match r.crd with
    | none => s2
    | some d => addEntry s2 "crd" (dictTotalRecords d) "crd_all.json"
  match r.credit_rating with
  | none => s3
  | some l => addGroup "credit_rating_" l s3

/-- The `datasets` entries the summary should end up with, given which
inputs are present: one `{records, file}` entry per present dataset,
in the order `create_summary` visits them. -/
def summaryEntries (r : RunResults) : List (String × SumEntry) :=
  (match r.event_calendar with
   | none => []
   | some d => [("event_calendar", ⟨dictTotalRecords d, "event_calendar_all.json"⟩)]) ++
  (match r.announcements with
   | none => []
   | some l => l.map (fun md =>
       ("announcements_" ++ md.1,
        ⟨dictTotalRecords md.2, "announcements_" ++ md.1 ++ "_all.json"⟩))) ++
  (match r.crd with
   | none => []
   | some d => [("crd", ⟨dictTotalRecords d, "crd_all.json"⟩)]) ++
  (match r.credit_rating with
   | none => []
   | some l => l.map (fun md =>
       ("credit_rating_" ++ md.1,
        ⟨dictTotalRecords md.2, "credit_rating_" ++ md.1 ++ "_all.json"⟩)))

/-! ### CSV export (menu choice 9 of the viewer scripts)

`pd.DataFrame(data)` over a list of dicts takes as columns the union
of the keys in first-appearance order (the first record's keys first);
a record missing a column gets NaN there.  Each column containing at
least one dict is then mapped by `x.get('text', x) if isinstance(x,
dict) else x`, and `to_csv(index=False)` writes a header row and one
row per record, rendering NaN as the empty string.  Cells in a
DataFrame column are `Option CellValue`, `none` standing for NaN. -/

/-- Append the keys of one record that are not yet columns. -/
def addKeys (cols : List String) (r : Record) : List String :=
  r.foldl (fun cs kv => if cs.contains kv.1 then cs else cs ++ [kv.1]) cols

/-- The DataFrame columns for a record list: union of keys in
first-appearance order. -/
def dfColumns (records : List Record) : List String :=
  records.foldl addKeys []

/-- The keys of a single record, first occurrence only (what `addKeys`
contributes for the first record). -/
def dedupKeys (r : Record) : List String := addKeys [] r

/-- Is this DataFrame cell a Python dict? (NaN is not.) -/
def cellIsDict : Option CellValue → Bool
  | some (.pydict _ _ _) => true
  | _ => false

/-- `x.get('text', x) if isinstance(x, dict) else x` on one cell. -/
def unwrapCell : Option CellValue → Option CellValue
  | some (.pydict (some t) _ _) => some (.pystr t)
  | c => c

/-- The per-column flattening step: columns containing a dict are
mapped by `unwrapCell`, the rest are left alone. -/
def flattenCol (col : List (Option CellValue)) : List (Option CellValue) :=
  if col.any cellIsDict then col.map unwrapCell else col

/-- CSV field quoting as performed by `to_csv`: fields containing a
comma, a double quote (character 34) or a newline are wrapped in
double quotes with inner quotes doubled. -/
def csvField (s : String) : String :=
  let q : Char := Char.ofNat 34
  if s.data.any (fun c => c = ',' || c = q || c = Char.ofNat 10) then
    String.mk (q :: (s.data.flatMap (fun c => if c = q then [q, q] else [c])) ++ [q])
  else s

/-- How `to_csv` renders one DataFrame cell: NaN (and None) as the
empty string, strings verbatim, other values via `str()`. -/
def cellCsv : Option CellValue → String
  | none => ""
  | some .pynone => ""
  | some (.pystr s) => s
  | some v => pyStrOf v

/-- A written CSV file: header row and data rows. -/
structure Csv where
  header : List String
  rows : List (List String)
deriving DecidableEq

/-- The DataFrame+flatten+`to_csv` pipeline of menu choice 9
(`view_announcements_data.py` lines 273-289): build the columns, read
each column off the records (missing key = NaN), flatten dict-bearing
columns, and emit the header and one row per record. -/
def export_to_csv (records : List Record) : Csv :=
  let cols := dfColumns records
  let colData := cols.map (fun c => flattenCol (records.map (fun r => List.lookup c r)))
  { header := cols.map csvField,
    rows := (List.range records.length).map
      (fun i => colData.map (fun col => csvField (cellCsv (col.getD i none)))) }

/-- The file writes performed by menu choice 9 (with pandas
available): exactly one CSV file is written, whatever the data. -/
def export_choice (records : List Record) (filename : String) : List (String × Csv) :=
  [(filename, export_to_csv records)]

/-! ### Response shapes and page-range helpers used in the statements -/

/-- A fully successful response: status 200, truthy `success`, and the
envelope reporting `total_pages = N` with the given records. -/
def okResp (m : Metadata) (N : Nat) (recs : List Record) : ServerResp :=
  .http 200 ⟨some true, none, some m, some ⟨some N⟩, some recs⟩

/-- Does this response make the loop break: an exception, a non-200
status, or a falsy `success` flag? -/
def isFailResp : ServerResp → Bool
  | .exc => true
  | .http status body => status ≠ 200 || !bodySuccess body

/-- The page numbers `k, k+1, ..., k+c-1`. -/
def pageRange : Nat → Nat → List Nat
  | _, 0 => []
  | k, c + 1 => k :: pageRange (k + 1) c

/-- The concatenation, in page order, of the record lists of pages
`k, ..., k+c-1`. -/
def pageJoin (pages : Nat → List Record) : Nat → Nat → List Record
  | _, 0 => []
  | k, c + 1 => pages k ++ pageJoin pages (k + 1) c

/-- The sum of the per-page record counts of pages `k, ..., k+c-1`. -/
def sumLens (pages : Nat → List Record) : Nat → Nat → Nat
  | _, 0 => 0
  | k, c + 1 => (pages k).length + sumLens pages (k + 1) c

/-- Invariant holding after the first loop iteration: the threaded
parameter dict carries `per_page = 1000`, the caller's entries `e`,
and as `page` exactly the last requested page number. -/
def Shaped (e : List (String × String)) (st : LoopSt) : Prop :=
  ∃ p, st.log.getLast? = some p ∧ st.params = ⟨some p, some 1000, e⟩

/-! ### Concrete material for witnesses and counterexamples -/

/-- Three one-field records used in concrete runs. -/
def rec1 : Record := [("X", .pystr "r1")]

def rec2 : Record := [("X", .pystr "r2")]

def rec3 : Record := [("X", .pystr "r3")]

/-- A source with two pages: page 1 carries two records, every later
page one record, `total_pages = 2` throughout. -/
def srvTwoPages : Server := fun p =>
  if p = 1 then okResp [("k", "v")] 2 [rec1, rec2] else okResp [("k", "v")] 2 [rec3]

/-- A source whose page 1 succeeds (`total_pages = 2`) and whose page 2
raises a transport error. -/
def srvFailAt2 : Server := fun p =>
  if p = 1 then okResp [("k", "v")] 2 [rec1, rec2] else .exc

/-- A source that succeeds with zero records on every page
(`total_pages = 1`). -/
def srvEmpty : Server := fun _ => okResp [] 1 []

/-- A CRD record whose `COMPANY NAME` is a structured mapping. -/
def crdRec : Record :=
  [("COMPANY NAME", .pydict (some "Reliance Industries") none none)]

/-! ## Theorems -/

/-! ### String helpers -/

theorem strData_eq_nil (s : String) : s.data = [] ↔ s = "" := by
  constructor
  · intro h
    calc s = String.mk s.data := rfl
    _ = String.mk [] := by rw [h]
    _ = "" := rfl
  · intro h
    rw [h]

theorem pyIn_str_empty (s : String) : pyIn s "" = true ↔ s = "" := by
  show s.data.isEmpty = true ↔ s = ""
  rw [List.isEmpty_iff, strData_eq_nil]

theorem pyLower_eq_empty (s : String) : pyLower s = "" ↔ s = "" := by
  constructor
  · intro h
    have h2 : s.data.map Char.toLower = [] := congrArg String.data h
    exact (strData_eq_nil s).mp (List.map_eq_nil_iff.mp h2)
  · intro h
    rw [h]
    rfl

/-! ### The subject and company tests -/

theorem subjectTest_str (r : Record) (kw s : String)
    (h : List.lookup "SUBJECT" r = some (.pystr s)) :
    subjectTest r kw = pyIn (pyLower kw) (pyLower s) := by
  simp [subjectTest, pyGet, h]

theorem subjectTest_dict (r : Record) (kw : String) (t ty l : Option String)
    (h : List.lookup "SUBJECT" r = some (.pydict t ty l)) :
    subjectTest r kw = false := by
  simp [subjectTest, pyGet, h]

theorem subjectTest_missing (r : Record) (kw : String)
    (h : List.lookup "SUBJECT" r = none) :
    (subjectTest r kw = true ↔ kw = "") := by
  have h1 : subjectTest r kw = pyIn (pyLower kw) (pyLower "") := by
    simp [subjectTest, pyGet, h]
  rw [h1, show pyLower "" = "" from rfl, pyIn_str_empty, pyLower_eq_empty]

theorem crdCompanyTest_dict (r : Record) (kw : String) (t ty l : Option String)
    (h : List.lookup "COMPANY NAME" r = some (.pydict t ty l)) :
    crdCompanyTest r kw = pyIn (pyLower kw) (pyLower (t.getD "")) := by
  simp [crdCompanyTest, pyGet, h]

/-! ### Filter structure lemmas -/

theorem mem_filter_by_subject (data : List Record) (kw : String) (r : Record) :
    r ∈ filter_by_subject data kw ↔ r ∈ data ∧ subjectTest r kw = true := by
  induction data with
  | nil => simp [filter_by_subject]
  | cons a rest ih =>
    by_cases h : subjectTest a kw
    · simp only [filter_by_subject, if_pos h, List.mem_cons]
      constructor
      · rintro (rfl | hr)
        · exact ⟨Or.inl rfl, h⟩
        · exact ⟨Or.inr (ih.mp hr).1, (ih.mp hr).2⟩
      · rintro ⟨(rfl | hm), ht⟩
        · exact Or.inl rfl
        · exact Or.inr (ih.mpr ⟨hm, ht⟩)
    · simp only [filter_by_subject, if_neg h, List.mem_cons]
      constructor
      · intro hr
        exact ⟨Or.inr (ih.mp hr).1, (ih.mp hr).2⟩
      · rintro ⟨(rfl | hm), ht⟩
        · exact absurd ht h
        · exact ih.mpr ⟨hm, ht⟩

theorem mem_crd_filter_by_company (data : List Record) (kw : String) (r : Record) :
    r ∈ crd_filter_by_company data kw ↔ r ∈ data ∧ crdCompanyTest r kw = true := by
  induction data with
  | nil => simp [crd_filter_by_company]
  | cons a rest ih =>
    by_cases h : crdCompanyTest a kw
    · simp only [crd_filter_by_company, if_pos h, List.mem_cons]
      constructor
      · rintro (rfl | hr)
        · exact ⟨Or.inl rfl, h⟩
        · exact ⟨Or.inr (ih.mp hr).1, (ih.mp hr).2⟩
      · rintro ⟨(rfl | hm), ht⟩
        · exact Or.inl rfl
        · exact Or.inr (ih.mpr ⟨hm, ht⟩)
    · simp only [crd_filter_by_company, if_neg h, List.mem_cons]
      constructor
      · intro hr
        exact ⟨Or.inr (ih.mp hr).1, (ih.mp hr).2⟩
      · rintro ⟨(rfl | hm), ht⟩
        · exact absurd ht h
        · exact ih.mpr ⟨hm, ht⟩

theorem filter_by_subject_sublist (data : List Record) (kw : String) :
    (filter_by_subject data kw).Sublist data := by
  induction data with
  | nil => exact List.Sublist.refl []
  | cons a rest ih =>
    by_cases h : subjectTest a kw
    · rw [filter_by_subject, if_pos h]
      exact ih.cons₂ a
    · rw [filter_by_subject, if_neg h]
      exact ih.cons a

theorem filter_by_subject_idem (data : List Record) (kw : String) :
    filter_by_subject (filter_by_subject data kw) kw = filter_by_subject data kw := by
  induction data with
  | nil => rfl
  | cons a rest ih =>
    by_cases h : subjectTest a kw
    · rw [filter_by_subject, if_pos h, filter_by_subject, if_pos h, ih]
    · rw [filter_by_subject, if_neg h, ih]

theorem format_cell_str (s : String) : format_cell (.pystr s) = .ok s := by
  by_cases hs : s = ""
  · subst hs
    rfl
  · have he : s.isEmpty = false := by
      cases h : s.isEmpty with
      | false => rfl
      | true => exact absurd ((String.isEmpty_iff s).mp h) hs
    have ht : pyTruthy (.pystr s) = true := by
      simp [pyTruthy, he]
    simp [format_cell, ht, pyStrOf]

/-- C4: the display formatter maps a plain scalar string to itself,
a `{text, type, link}` mapping to its text suffixed ` [PDF]` when the
type is `pdf` and ` [XBRL]` when it is `xbrl` (the two downloadable
artifact kinds), a mapping with any other or no type to its bare text,
and a missing value (`None`) to the empty string. -/
theorem C4_format_cell_display (s t k : String) (l : Option String)
    (hk1 : k ≠ "pdf") (hk2 : k ≠ "xbrl") :
    format_cell (.pystr s) = .ok s ∧
    format_cell (.pydict (some t) (some "pdf") l) = .ok (t ++ " [PDF]") ∧
    format_cell (.pydict (some t) (some "xbrl") l) = .ok (t ++ " [XBRL]") ∧
    format_cell (.pydict (some t) (some k) l) = .ok t ∧
    format_cell (.pydict (some t) none l) = .ok t ∧
    format_cell .pynone = .ok "" := by
  refine ⟨format_cell_str s, by simp [format_cell], by simp [format_cell], ?_, rfl, rfl⟩
  simp [format_cell, hk1, hk2]

/-- C4 witness: the display formatter evaluated at concrete cells. -/
theorem C4_format_cell_display_witness :
    format_cell (.pystr "plain") = .ok "plain" ∧
    format_cell (.pydict (some "Q3") (some "pdf") none) = .ok "Q3 [PDF]" ∧
    format_cell (.pydict (some "Q3") (some "xbrl") none) = .ok "Q3 [XBRL]" ∧
    format_cell (.pydict (some "Q3") (some "other") none) = .ok "Q3" ∧
    format_cell (.pydict (some "Q3") none none) = .ok "Q3" ∧
    format_cell .pynone = .ok "" :=
  C4_format_cell_display "plain" "Q3" "other" none (by decide) (by decide)

/-- C5 counterexample: a mapping without a `text` key (a malformed
cell) is displayed as the Python string form of the mapping, here
`"\x7b\x7d"`, not as the empty string, refuting "absent or malformed
input degrades to empty string". -/
theorem C5_counterexample :
    format_cell (.pydict none none none) = .ok "\x7b\x7d" ∧
    format_cell (.pydict none none none) ≠ .ok "" := by
  refine ⟨rfl, fun h => ?_⟩
  have h' : Except.ok (α := String) (pyDictRepr none none none) = Except.ok "" := h
  exact absurd (Except.ok.inj h') (by decide)

/-- C5 (amended): both display formatters are total and
exception-free — every input yields an `.ok` string; `None` and the
empty string degrade to the empty string; but a mapping lacking a
`text` key degrades to the string form of the mapping, not to the
empty string. -/
theorem C5_format_cell_total :
    (∀ v, ∃ s, format_cell v = .ok s) ∧
    (∀ v, ∃ s, format_cell_ev v = .ok s) ∧
    format_cell .pynone = .ok "" ∧
    format_cell (.pystr "") = .ok "" ∧
    (∀ ty l, format_cell (.pydict none ty l) = .ok (pyDictRepr none ty l)) ∧
    (∀ ty l, format_cell_ev (.pydict none ty l) = .ok (pyDictRepr none ty l)) := by
  refine ⟨?_, ?_, rfl, rfl, fun ty l => rfl, fun ty l => rfl⟩
  · rintro (_ | ⟨s⟩ | ⟨n⟩ | ⟨t, ty, l⟩)
    · exact ⟨"", rfl⟩
    · exact ⟨_, rfl⟩
    · exact ⟨_, rfl⟩
    · rcases t with _ | t
      · exact ⟨_, rfl⟩
      · by_cases h1 : ty = some "pdf"
        · exact ⟨t ++ " [PDF]", by simp [format_cell, h1]⟩
        · by_cases h2 : ty = some "xbrl"
          · exact ⟨t ++ " [XBRL]", by simp [format_cell, h1, h2]⟩
          · exact ⟨t, by simp [format_cell, h1, h2]⟩
  · rintro (_ | ⟨s⟩ | ⟨n⟩ | ⟨t, ty, l⟩)
    · exact ⟨"", rfl⟩
    · exact ⟨_, rfl⟩
    · exact ⟨_, rfl⟩
    · rcases t with _ | t
      · exact ⟨_, rfl⟩
      · exact ⟨t, rfl⟩

/-- C6 counterexample: in the CRD viewer a record whose
`COMPANY NAME` is a structured mapping does match through the
mapping's text, so "a value that is not text-like never matches"
fails on the code. -/
theorem C6_counterexample :
    List.lookup "COMPANY NAME" crdRec =
      some (.pydict (some "Reliance Industries") none none) ∧
    crd_filter_by_company [crdRec] "Reliance" = [crdRec] := by
  constructor
  · rfl
  · decide

/-- C6 (amended): `filter_by_subject` keeps exactly the records whose
`SUBJECT` value is a plain string containing the keyword
case-insensitively; a mapping-valued `SUBJECT` never matches there,
and a record without `SUBJECT` defaults to the empty string, hence
matches exactly the empty keyword.  The CRD `filter_by_company`
instead first replaces a mapping-valued `COMPANY NAME` by its text
(default empty), so such records match through their text. -/
theorem C6_filter_field_matching (data : List Record) (kw : String)
    (r : Record) (s : String) (t ty l : Option String) :
    (r ∈ filter_by_subject data kw ↔ r ∈ data ∧ subjectTest r kw = true) ∧
    (List.lookup "SUBJECT" r = some (.pystr s) →
      subjectTest r kw = pyIn (pyLower kw) (pyLower s)) ∧
    (List.lookup "SUBJECT" r = some (.pydict t ty l) →
      subjectTest r kw = false) ∧
    (List.lookup "SUBJECT" r = none → (subjectTest r kw = true ↔ kw = "")) ∧
    (r ∈ crd_filter_by_company data kw ↔ r ∈ data ∧ crdCompanyTest r kw = true) ∧
    (List.lookup "COMPANY NAME" r = some (.pydict t ty l) →
      crdCompanyTest r kw = pyIn (pyLower kw) (pyLower (t.getD ""))) :=
  ⟨mem_filter_by_subject data kw r,
   fun h => subjectTest_str r kw s h,
   fun h => subjectTest_dict r kw t ty l h,
   fun h => subjectTest_missing r kw h,
   mem_crd_filter_by_company data kw r,
   fun h => crdCompanyTest_dict r kw t ty l h⟩

/-- C6 witness: a record without a `SUBJECT` field matches the empty
keyword and is kept by the filter. -/
theorem C6_filter_field_matching_witness :
    subjectTest rec1 "" = true ∧ rec1 ∈ filter_by_subject [rec1] "" := by
  have h := C6_filter_field_matching [rec1] "" rec1 "x" none none none
  have hm : subjectTest rec1 "" = true := (h.2.2.2.1 rfl).mpr rfl
  exact ⟨hm, h.1.mpr ⟨List.mem_singleton.mpr rfl, hm⟩⟩

/-- C7: the subject filter returns a subsequence of its input (every
kept record occurs in the input, in the same relative order) and is
idempotent: filtering its own output with the same keyword returns
that output unchanged. -/
theorem C7_filter_subseq_idem (data : List Record) (kw : String) :
    (filter_by_subject data kw).Sublist data ∧
    filter_by_subject (filter_by_subject data kw) kw = filter_by_subject data kw :=
  ⟨filter_by_subject_sublist data kw, filter_by_subject_idem data kw⟩

/-! ### DataFrame column lemmas -/

theorem prefix_addKeys (cols : List String) (r : Record) : cols <+: addKeys cols r := by
  induction r generalizing cols with
  | nil => exact List.prefix_refl _
  | cons kv rest ih =>
    show cols <+: addKeys (if cols.contains kv.1 then cols else cols ++ [kv.1]) rest
    refine List.IsPrefix.trans ?_ (ih _)
    by_cases h : cols.contains kv.1
    · rw [if_pos h]
    · rw [if_neg h]
      exact List.prefix_append cols [kv.1]

theorem prefix_foldl_addKeys (l : List Record) :
    ∀ cols, cols <+: l.foldl addKeys cols := by
  induction l with
  | nil => exact fun cols => List.prefix_refl _
  | cons r rest ih => exact fun cols => (prefix_addKeys cols r).trans (ih _)

theorem firstKeys_prefix_dfColumns (r : Record) (rest : List Record) :
    dedupKeys r <+: dfColumns (r :: rest) := by
  show dedupKeys r <+: rest.foldl addKeys (addKeys [] r)
  exact prefix_foldl_addKeys rest (addKeys [] r)

theorem mem_addKeys (r : Record) : ∀ (cols : List String) (k : String),
    (k ∈ addKeys cols r ↔ k ∈ cols ∨ ∃ v, (k, v) ∈ r) := by
  induction r with
  | nil => simp [addKeys]
  | cons kv rest ih =>
    rcases kv with ⟨k1, v1⟩
    intro cols k
    show k ∈ addKeys (if cols.contains k1 then cols else cols ++ [k1]) rest ↔ _
    rw [ih]
    by_cases h : cols.contains k1
    · rw [if_pos h]
      constructor
      · rintro (hm | ⟨v, hv⟩)
        · exact Or.inl hm
        · exact Or.inr ⟨v, List.mem_cons_of_mem _ hv⟩
      · rintro (hm | ⟨v, hv⟩)
        · exact Or.inl hm
        · rcases List.mem_cons.mp hv with heq | hmem
          · have hk : k = k1 := congrArg Prod.fst heq
            exact Or.inl (by rw [hk]; exact List.elem_iff.mp h)
          · exact Or.inr ⟨v, hmem⟩
    · rw [if_neg h]
      constructor
      · rintro (hm | ⟨v, hv⟩)
        · rcases List.mem_append.mp hm with h1 | h2
          · exact Or.inl h1
          · have hk : k = k1 := by simpa using h2
            exact Or.inr ⟨v1, by rw [hk]; exact List.mem_cons_self _ _⟩
        · exact Or.inr ⟨v, List.mem_cons_of_mem _ hv⟩
      · rintro (hm | ⟨v, hv⟩)
        · exact Or.inl (List.mem_append.mpr (Or.inl hm))
        · rcases List.mem_cons.mp hv with heq | hmem
          · have hk : k = k1 := congrArg Prod.fst heq
            exact Or.inl (List.mem_append.mpr (Or.inr (by simp [hk])))
          · exact Or.inr ⟨v, hmem⟩

theorem mem_foldl_addKeys (l : List Record) : ∀ (cols : List String) (k : String),
    (k ∈ l.foldl addKeys cols ↔ k ∈ cols ∨ ∃ r ∈ l, ∃ v, (k, v) ∈ r) := by
  induction l with
  | nil => simp
  | cons r rest ih =>
    intro cols k
    show k ∈ rest.foldl addKeys (addKeys cols r) ↔ _
    rw [ih, mem_addKeys]
    simp only [List.mem_cons]
    constructor
    · rintro ((hm | ⟨v, hv⟩) | ⟨rr, hrr, v, hv⟩)
      · exact Or.inl hm
      · exact Or.inr ⟨r, Or.inl rfl, v, hv⟩
      · exact Or.inr ⟨rr, Or.inr hrr, v, hv⟩
    · rintro (hm | ⟨rr, (rfl | hrr), v, hv⟩)
      · exact Or.inl (Or.inl hm)
      · exact Or.inl (Or.inr ⟨v, hv⟩)
      · exact Or.inr ⟨rr, hrr, v, hv⟩

theorem mem_dfColumns (records : List Record) (k : String) :
    k ∈ dfColumns records ↔ ∃ r ∈ records, ∃ v, (k, v) ∈ r := by
  show k ∈ records.foldl addKeys [] ↔ _
  rw [mem_foldl_addKeys]
  simp

/-- C8 counterexample: exporting an empty record list does not fail —
the menu still writes one CSV file, with an empty header and no data
rows, refuting "fails with an ExportError ... and no file written". -/
theorem C8_counterexample :
    export_choice [] "export.csv" = [("export.csv", ⟨[], []⟩)] := rfl

/-- C8 (amended): the CSV export always writes exactly one file and
never fails; with no records the file has an empty header and no
rows.  It writes one data row per record; the header lists the fields
of all records in first-appearance order, the first record's fields
first; and a rich cell is flattened to its bare text, with no bracket
annotation. -/
theorem C8_export_csv (records : List Record) (f : String) (r : Record)
    (rest : List Record) (c t k : String) (ty lnk : Option String) :
    export_choice records f = [(f, export_to_csv records)] ∧
    (export_to_csv records).rows.length = records.length ∧
    ((dedupKeys r).map csvField) <+: (export_to_csv (r :: rest)).header ∧
    (k ∈ dfColumns records ↔ ∃ rr ∈ records, ∃ v, (k, v) ∈ rr) ∧
    export_to_csv [[(c, .pydict (some t) ty lnk)]] = ⟨[csvField c], [[csvField t]]⟩ := by
  refine ⟨rfl, ?_, ?_, mem_dfColumns records k, ?_⟩
  · simp [export_to_csv]
  · show ((dedupKeys r).map csvField) <+: (dfColumns (r :: rest)).map csvField
    exact (firstKeys_prefix_dfColumns r rest).map csvField
  · have hcols : dfColumns [[(c, CellValue.pydict (some t) ty lnk)]] = [c] := by
      simp [dfColumns, addKeys]
    have hlook :
        List.lookup c [(c, CellValue.pydict (some t) ty lnk)] =
          some (.pydict (some t) ty lnk) := by
      simp [List.lookup]
    simp [export_to_csv, hcols, hlook, flattenCol, cellIsDict, unwrapCell, cellCsv,
      List.range_succ, List.range_zero, List.getElem?_cons_zero, Option.getD_some]

/-! ### Loop step lemmas -/

theorem fetchLoop_exit (server : Server) (fuel : Nat) (st : LoopSt)
    (h : ¬ st.page ≤ st.total_pages) : fetchLoop server fuel st = st := by
  cases fuel with
  | zero => rfl
  | succ fuel => rw [fetchLoop, if_neg h]

theorem fetchLoop_step_succ (server : Server) (fuel : Nat) (st : LoopSt)
    (status : Nat) (body : ApiBody)
    (hcond : st.page ≤ st.total_pages)
    (hsv : server st.page = .http status body)
    (h200 : status = 200) (hsucc : bodySuccess body = true) :
    fetchLoop server (fuel + 1) st =
      fetchLoop server fuel
        { all_data := st.all_data ++ body.data.getD [],
          page := st.page + 1,
          total_pages := ((body.pagination.getD ⟨none⟩).total_pages).getD 1,
          metadata := body.metadata.getD [],
          params := { st.params with page := some st.page, per_page := some 1000 },
          log := st.log ++ [st.page] } := by
  subst h200
  rw [fetchLoop, if_pos hcond, hsv]
  dsimp only
  rw [if_neg (by omega), if_neg (not_not_intro hsucc)]

theorem fetchLoop_break (server : Server) (fuel : Nat) (st : LoopSt)
    (hcond : st.page ≤ st.total_pages)
    (hf : isFailResp (server st.page) = true) :
    fetchLoop server (fuel + 1) st =
      { st with
        params := { st.params with page := some st.page, per_page := some 1000 },
        log := st.log ++ [st.page] } := by
  rw [fetchLoop, if_pos hcond]
  cases hsv : server st.page with
  | exc => rfl
  | http status body =>
    rw [hsv] at hf
    dsimp only
    by_cases hst : status = 200
    · subst hst
      have hbs : bodySuccess body = false := by
        simpa [isFailResp] using hf
      rw [if_neg (by omega), if_pos (by rw [hbs]; exact fun h => nomatch h)]
    · rw [if_pos hst]

/-! ### Page-range helpers -/

theorem pageRange_length : ∀ k c, (pageRange k c).length = c := by
  intro k c
  induction c generalizing k with
  | zero => rfl
  | succ c ih => simp [pageRange, ih]

theorem pageJoin_length (pages : Nat → List Record) :
    ∀ k c, (pageJoin pages k c).length = sumLens pages k c := by
  intro k c
  induction c generalizing k with
  | zero => rfl
  | succ c ih => simp [pageJoin, sumLens, ih]

/-! ### The two loop-shape lemmas -/

theorem fetchLoop_ok (server : Server) (N : Nat) (pages : Nat → List Record)
    (m : Metadata) (hN : 1 ≤ N)
    (hserv : ∀ p, 1 ≤ p → p ≤ N → server p = okResp m N (pages p)) :
    ∀ c, ∀ (fuel k : Nat) (st : LoopSt), st.page = k →
      (st.total_pages = N ∨ (k = 1 ∧ st.total_pages = 1)) →
      1 ≤ k → k + c = N + 1 → c ≤ fuel →
      fetchLoop server fuel st =
        if 1 ≤ c then
          { all_data := st.all_data ++ pageJoin pages k c,
            page := N + 1, total_pages := N, metadata := m,
            params := { st.params with page := some N, per_page := some 1000 },
            log := st.log ++ pageRange k c }
        else st := by
  intro c
  induction c with
  | zero =>
    intro fuel k st hp htp hk1 hkc hfuel
    rw [if_neg (by omega)]
    refine fetchLoop_exit server fuel st ?_
    rcases htp with h | ⟨hke, h⟩ <;> rw [hp, h] <;> omega
  | succ c ih =>
    intro fuel k st hp htp hk1 hkc hfuel
    rw [if_pos (by omega)]
    obtain ⟨f, rfl⟩ : ∃ f, fuel = f + 1 := ⟨fuel - 1, by omega⟩
    have hkN : k ≤ N := by omega
    have hcond : st.page ≤ st.total_pages := by
      rcases htp with h | ⟨hke, h⟩ <;> rw [hp, h] <;> omega
    have hs : server st.page = okResp m N (pages k) := by
      rw [hp]; exact hserv k hk1 hkN
    rw [fetchLoop_step_succ server f st 200
      ⟨some true, none, some m, some ⟨some N⟩, some (pages k)⟩
      hcond hs rfl rfl]
    rw [ih f (k + 1) _ (by simp [hp]) (Or.inl rfl) (by omega) (by omega) (by omega)]
    by_cases hc : 1 ≤ c
    · rw [if_pos hc]
      dsimp only
      simp only [Option.getD_some]
      have e1 : st.all_data ++ pages k ++ pageJoin pages (k + 1) c =
          st.all_data ++ pageJoin pages k (c + 1) := by
        simp [pageJoin, List.append_assoc]
      have e2 : st.log ++ [st.page] ++ pageRange (k + 1) c =
          st.log ++ pageRange k (c + 1) := by
        simp [pageRange, hp, List.append_assoc]
      rw [e1, e2]
    · rw [if_neg hc]
      have hc0 : c = 0 := by omega
      subst hc0
      have hkn : k = N := by omega
      dsimp only
      simp only [Option.getD_some]
      have e1 : st.all_data ++ pages k =
          st.all_data ++ pageJoin pages k (0 + 1) := by
        simp [pageJoin]
      have e2 : st.log ++ [st.page] = st.log ++ pageRange k (0 + 1) := by
        simp [pageRange, hp]
      rw [e1, e2, ← hkn, hp]

theorem fetchLoop_fail (server : Server) (N k : Nat) (pages : Nat → List Record)
    (m : Metadata)
    (hkN : k ≤ N)
    (hok : ∀ p, 1 ≤ p → p < k → server p = okResp m N (pages p))
    (hf : isFailResp (server k) = true) :
    ∀ c, ∀ (fuel j : Nat) (st : LoopSt), st.page = j →
      (st.total_pages = N ∨ (j = 1 ∧ st.total_pages = 1)) →
      1 ≤ j → j + c = k → c + 1 ≤ fuel →
      fetchLoop server fuel st =
        { all_data := st.all_data ++ pageJoin pages j c,
          page := k,
          total_pages := if 1 ≤ c then N else st.total_pages,
          metadata := if 1 ≤ c then m else st.metadata,
          params := { st.params with page := some k, per_page := some 1000 },
          log := st.log ++ pageRange j (c + 1) } := by
  intro c
  induction c with
  | zero =>
    intro fuel j st hp htp hj1 hjc hfuel
    obtain ⟨f, rfl⟩ : ∃ f, fuel = f + 1 := ⟨fuel - 1, by omega⟩
    have hjk : j = k := by omega
    have hcond : st.page ≤ st.total_pages := by
      rcases htp with h | ⟨hje, h⟩ <;> rw [hp, h] <;> omega
    rw [fetchLoop_break server f st hcond (by rw [hp, hjk]; exact hf)]
    have e1 : st.all_data ++ pageJoin pages j 0 = st.all_data := by
      simp [pageJoin]
    have e2 : st.log ++ pageRange j (0 + 1) = st.log ++ [st.page] := by
      simp [pageRange, hp]
    rw [e1, e2, if_neg (by omega : ¬ (1 : Nat) ≤ 0), if_neg (by omega : ¬ (1 : Nat) ≤ 0),
      ← hjk, ← hp]
  | succ c ih =>
    intro fuel j st hp htp hj1 hjc hfuel
    obtain ⟨f, rfl⟩ : ∃ f, fuel = f + 1 := ⟨fuel - 1, by omega⟩
    have hjk : j < k := by omega
    have hcond : st.page ≤ st.total_pages := by
      rcases htp with h | ⟨hje, h⟩ <;> rw [hp, h] <;> omega
    have hs : server st.page = okResp m N (pages j) := by
      rw [hp]; exact hok j hj1 hjk
    rw [fetchLoop_step_succ server f st 200
      ⟨some true, none, some m, some ⟨some N⟩, some (pages j)⟩
      hcond hs rfl rfl]
    rw [ih f (j + 1) _ (by simp [hp]) (Or.inl rfl) (by omega) (by omega) (by omega)]
    dsimp only
    simp only [Option.getD_some]
    have e1 : st.all_data ++ pages j ++ pageJoin pages (j + 1) c =
        st.all_data ++ pageJoin pages j (c + 1) := by
      simp [pageJoin, List.append_assoc]
    have e2 : st.log ++ [st.page] ++ pageRange (j + 1) (c + 1) =
        st.log ++ pageRange j (c + 1 + 1) := by
      simp [pageRange, hp, List.append_assoc]
    have e3 : (if 1 ≤ c then m else m) = (if 1 ≤ c + 1 then m else st.metadata) := by
      rw [ite_self, if_pos (by omega)]
    have e4 : (if 1 ≤ c then N else N) = (if 1 ≤ c + 1 then N else st.total_pages) := by
      rw [ite_self, if_pos (by omega)]
    rw [e1, e2, e3, e4]

/-- C1: when the source reports `total_pages = N` on every response and
every page from 1 to N succeeds, the loop requests exactly the pages
1..N (N fetches, in order), the returned `data` is the concatenation of
the per-page record lists in page order, and `total_records` is the sum
of the per-page record counts. -/
theorem C1_aggregation_success (server : Server) (endpoint : String) (params0 : Params)
    (N fuel : Nat) (pages : Nat → List Record) (m : Metadata) (now : String)
    (hN : 1 ≤ N) (hfuel : N ≤ fuel)
    (hserv : ∀ p, 1 ≤ p → p ≤ N → server p = okResp m N (pages p)) :
    (fetch_all_pages server endpoint params0 fuel now).trace = pageRange 1 N ∧
    (fetch_all_pages server endpoint params0 fuel now).trace.length = N ∧
    List.lookup "data" (fetch_all_pages server endpoint params0 fuel now).dict =
      some (.records (pageJoin pages 1 N)) ∧
    List.lookup "total_records" (fetch_all_pages server endpoint params0 fuel now).dict =
      some (.nat (sumLens pages 1 N)) := by
  have hloop := fetchLoop_ok server N pages m hN hserv N fuel 1 (initSt params0)
    rfl (Or.inr ⟨rfl, rfl⟩) (le_refl 1) (by omega) hfuel
  rw [if_pos hN] at hloop
  have hout : fetch_all_pages server endpoint params0 fuel now =
      { dict := [("metadata", .meta m),
                 ("total_records", .nat (pageJoin pages 1 N).length),
                 ("fetched_at", .str now),
                 ("source", .str endpoint),
                 ("params", .params { params0 with page := some N, per_page := some 1000 }),
                 ("data", .records (pageJoin pages 1 N))],
        trace := pageRange 1 N } := by
    simp only [fetch_all_pages]
    rw [hloop]
    rfl
  rw [hout]
  refine ⟨rfl, pageRange_length 1 N, rfl, ?_⟩
  calc List.lookup "total_records"
        [("metadata", RVal.meta m),
         ("total_records", RVal.nat (pageJoin pages 1 N).length),
         ("fetched_at", RVal.str now),
         ("source", RVal.str endpoint),
         ("params", RVal.params { params0 with page := some N, per_page := some 1000 }),
         ("data", RVal.records (pageJoin pages 1 N))] =
      some (RVal.nat (pageJoin pages 1 N).length) := rfl
  _ = some (RVal.nat (sumLens pages 1 N)) := by rw [pageJoin_length]

/-- C1 witness: a two-page source with three records in total. -/
theorem C1_aggregation_success_witness :
    (fetch_all_pages srvTwoPages "/event-calendar" Params.empty 2 "t").trace =
      pageRange 1 2 ∧
    (fetch_all_pages srvTwoPages "/event-calendar" Params.empty 2 "t").trace.length = 2 ∧
    List.lookup "data" (fetch_all_pages srvTwoPages "/event-calendar" Params.empty 2 "t").dict =
      some (.records (pageJoin (fun p => if p = 1 then [rec1, rec2] else [rec3]) 1 2)) ∧
    List.lookup "total_records"
        (fetch_all_pages srvTwoPages "/event-calendar" Params.empty 2 "t").dict =
      some (.nat (sumLens (fun p => if p = 1 then [rec1, rec2] else [rec3]) 1 2)) :=
  C1_aggregation_success srvTwoPages "/event-calendar" Params.empty 2 2
    (fun p => if p = 1 then [rec1, rec2] else [rec3]) [("k", "v")] "t"
    (by omega) (by omega)
    (fun p h1 h2 => by interval_cases p <;> rfl)

/-- C2 counterexample: a run whose page 2 fails still returns a dict
with no `fetch_error` key at all — the returned dict has exactly the
six literal keys of `fetch_all_pages`, so the error is not recorded on
the dataset, refuting that part of the claim. -/
theorem C2_counterexample :
    List.lookup "fetch_error"
      (fetch_all_pages srvFailAt2 "/event-calendar" Params.empty 4 "t").dict = none ∧
    (fetch_all_pages srvFailAt2 "/event-calendar" Params.empty 4 "t").trace = [1, 2] ∧
    dictData (fetch_all_pages srvFailAt2 "/event-calendar" Params.empty 4 "t").dict =
      [rec1, rec2] := by
  exact ⟨rfl, by decide, by decide⟩

/-- C2 (amended): if page k (1 < k ≤ N) is the first page to fail, the
returned dataset's records are exactly the concatenation of pages
1..k-1 (no record of page k or later), the partial dataset is still
returned, and the error is only reported to the console: the returned
dict carries no `fetch_error` field. -/
theorem C2_truncation_on_failure (server : Server) (endpoint : String) (params0 : Params)
    (N k fuel : Nat) (pages : Nat → List Record) (m : Metadata) (now : String)
    (hk1 : 1 < k) (hkN : k ≤ N) (hfuel : k ≤ fuel)
    (hok : ∀ p, 1 ≤ p → p < k → server p = okResp m N (pages p))
    (hf : isFailResp (server k) = true) :
    List.lookup "data" (fetch_all_pages server endpoint params0 fuel now).dict =
      some (.records (pageJoin pages 1 (k - 1))) ∧
    List.lookup "total_records" (fetch_all_pages server endpoint params0 fuel now).dict =
      some (.nat (sumLens pages 1 (k - 1))) ∧
    List.lookup "fetch_error" (fetch_all_pages server endpoint params0 fuel now).dict =
      none ∧
    (fetch_all_pages server endpoint params0 fuel now).trace = pageRange 1 k := by
  have hloop := fetchLoop_fail server N k pages m hkN hok hf (k - 1) fuel 1 (initSt params0)
    rfl (Or.inr ⟨rfl, rfl⟩) (le_refl 1) (by omega) (by omega)
  rw [if_pos (by omega), if_pos (by omega)] at hloop
  have e : k - 1 + 1 = k := by omega
  rw [e] at hloop
  have hout : fetch_all_pages server endpoint params0 fuel now =
      { dict := [("metadata", .meta m),
                 ("total_records", .nat (pageJoin pages 1 (k - 1)).length),
                 ("fetched_at", .str now),
                 ("source", .str endpoint),
                 ("params", .params { params0 with page := some k, per_page := some 1000 }),
                 ("data", .records (pageJoin pages 1 (k - 1)))],
        trace := pageRange 1 k } := by
    simp only [fetch_all_pages]
    rw [hloop]
    rfl
  rw [hout]
  refine ⟨rfl, ?_, rfl, rfl⟩
  calc List.lookup "total_records"
        [("metadata", RVal.meta m),
         ("total_records", RVal.nat (pageJoin pages 1 (k - 1)).length),
         ("fetched_at", RVal.str now),
         ("source", RVal.str endpoint),
         ("params", RVal.params { params0 with page := some k, per_page := some 1000 }),
         ("data", RVal.records (pageJoin pages 1 (k - 1)))] =
      some (RVal.nat (pageJoin pages 1 (k - 1)).length) := rfl
  _ = some (RVal.nat (sumLens pages 1 (k - 1))) := by rw [pageJoin_length]

/-- C2 witness: page 2 of two raises; the dataset keeps page 1 only. -/
theorem C2_truncation_on_failure_witness :
    List.lookup "data"
        (fetch_all_pages srvFailAt2 "/announcements" (Params.single "market" "equity") 4 "t").dict =
      some (.records (pageJoin (fun p => if p = 1 then [rec1, rec2] else []) 1 1)) ∧
    List.lookup "total_records"
        (fetch_all_pages srvFailAt2 "/announcements" (Params.single "market" "equity") 4 "t").dict =
      some (.nat (sumLens (fun p => if p = 1 then [rec1, rec2] else []) 1 1)) ∧
    List.lookup "fetch_error"
        (fetch_all_pages srvFailAt2 "/announcements" (Params.single "market" "equity") 4 "t").dict =
      none ∧
    (fetch_all_pages srvFailAt2 "/announcements" (Params.single "market" "equity") 4 "t").trace =
      pageRange 1 2 :=
  C2_truncation_on_failure srvFailAt2 "/announcements" (Params.single "market" "equity")
    2 2 4 (fun p => if p = 1 then [rec1, rec2] else []) [("k", "v")] "t"
    (by omega) (by omega) (by omega)
    (fun p h1 h2 => by
      interval_cases p
      rfl)
    (by decide)

/-! ### The parameter-mutation invariant -/

theorem fetchLoop_shaped (server : Server) (e : List (String × String)) :
    ∀ (fuel : Nat) (st : LoopSt), Shaped e st → Shaped e (fetchLoop server fuel st) := by
  intro fuel
  induction fuel with
  | zero => exact fun st h => h
  | succ fuel ih =>
    intro st h
    by_cases hcond : st.page ≤ st.total_pages
    · obtain ⟨p0, hlog, hparams⟩ := h
      cases hsv : server st.page with
      | exc =>
        rw [fetchLoop, if_pos hcond, hsv]
        exact ⟨st.page, List.getLast?_concat _, by rw [hparams]⟩
      | http status body =>
        by_cases h200 : status = 200
        · by_cases hsucc : bodySuccess body = true
          · rw [fetchLoop_step_succ server fuel st status body hcond hsv h200 hsucc]
            exact ih _ ⟨st.page, List.getLast?_concat _, by rw [hparams]⟩
          · have hfail : isFailResp (server st.page) = true := by
              subst h200
              have hbs : bodySuccess body = false := by
                cases hb : bodySuccess body with
                | false => rfl
                | true => exact absurd hb hsucc
              rw [hsv]
              simp [isFailResp, hbs]
            rw [fetchLoop_break server fuel st hcond hfail]
            exact ⟨st.page, List.getLast?_concat _, by rw [hparams]⟩
        · have hfail : isFailResp (server st.page) = true := by
            rw [hsv]
            simp [isFailResp, h200]
          rw [fetchLoop_break server fuel st hcond hfail]
          exact ⟨st.page, List.getLast?_concat _, by rw [hparams]⟩
    · rw [fetchLoop_exit server (fuel + 1) st hcond]
      exact h

/-- C10: the loop writes `page` and `per_page` into the caller's
parameter dict on every iteration and embeds that same dict as the
returned `params` entry: for every run (any source, any outcome) the
returned `params` holds `per_page = 1000` and as `page` exactly the
page number of the last attempted request, with the caller's own
entries preserved — not the caller's original `page`-less mapping. -/
theorem C10_params_mutated (server : Server) (endpoint : String)
    (extra : List (String × String)) (fuel : Nat) (now : String)
    (hfuel : 1 ≤ fuel) :
    ∃ p,
      (fetch_all_pages server endpoint ⟨none, none, extra⟩ fuel now).trace.getLast? =
        some p ∧
      List.lookup "params"
          (fetch_all_pages server endpoint ⟨none, none, extra⟩ fuel now).dict =
        some (.params ⟨some p, some 1000, extra⟩) := by
  obtain ⟨f, rfl⟩ : ∃ f, fuel = f + 1 := ⟨fuel - 1, by omega⟩
  have hsh : Shaped extra (fetchLoop server (f + 1) (initSt ⟨none, none, extra⟩)) := by
    have hcond : (initSt (⟨none, none, extra⟩ : Params)).page ≤
        (initSt (⟨none, none, extra⟩ : Params)).total_pages := le_refl 1
    cases hsv : server (initSt (⟨none, none, extra⟩ : Params)).page with
    | exc =>
      rw [fetchLoop, if_pos hcond, hsv]
      exact ⟨1, List.getLast?_concat _, rfl⟩
    | http status body =>
      by_cases h200 : status = 200
      · by_cases hsucc : bodySuccess body = true
        · rw [fetchLoop_step_succ server f _ status body hcond hsv h200 hsucc]
          exact fetchLoop_shaped server extra f _ ⟨1, List.getLast?_concat _, rfl⟩
        · have hfail : isFailResp (server (initSt (⟨none, none, extra⟩ : Params)).page) = true := by
            subst h200
            have hbs : bodySuccess body = false := by
              cases hb : bodySuccess body with
              | false => rfl
              | true => exact absurd hb hsucc
            rw [hsv]
            simp [isFailResp, hbs]
          rw [fetchLoop_break server f _ hcond hfail]
          exact ⟨1, List.getLast?_concat _, rfl⟩
      · have hfail : isFailResp (server (initSt (⟨none, none, extra⟩ : Params)).page) = true := by
          rw [hsv]
          simp [isFailResp, h200]
        rw [fetchLoop_break server f _ hcond hfail]
        exact ⟨1, List.getLast?_concat _, rfl⟩
  obtain ⟨p, hlog, hparams⟩ := hsh
  refine ⟨p, hlog, ?_⟩
  have hl : List.lookup "params"
      (fetch_all_pages server endpoint ⟨none, none, extra⟩ (f + 1) now).dict =
      some (.params (fetchLoop server (f + 1) (initSt ⟨none, none, extra⟩)).params) := rfl
  rw [hl, hparams]

/-- C10 witness: one page fetched, `params` ends at page 1 with
`per_page` 1000. -/
theorem C10_params_mutated_witness :
    ∃ p,
      (fetch_all_pages srvEmpty "/crd" ⟨none, none, []⟩ 3 "t").trace.getLast? = some p ∧
      List.lookup "params" (fetch_all_pages srvEmpty "/crd" ⟨none, none, []⟩ 3 "t").dict =
        some (.params ⟨some p, some 1000, []⟩) :=
  C10_params_mutated srvEmpty "/crd" [] 3 "t" (by omega)

/-! ### Persistence of empty datasets -/

/-- C3 counterexample: against a source that succeeds with zero
records, the event-calendar fetcher still hands its zero-record
dataset to `save_to_json` — one file write is performed. -/
theorem C3_counterexample :
    dictData (fetch_event_calendar srvEmpty 3 "t").1 = [] ∧
    dictTotalRecords (fetch_event_calendar srvEmpty 3 "t").1 = 0 ∧
    (fetch_event_calendar srvEmpty 3 "t").2 =
      [("event_calendar_all.json", (fetch_event_calendar srvEmpty 3 "t").1)] := by
  exact ⟨by decide, by decide, rfl⟩

theorem marketStep_all_pos (f : String → Dict) (mk : String → String) :
    ∀ (ms : List String) (acc : List (String × Dict) × List Write),
      acc.2.all (fun w => 0 < dictTotalRecords w.2) = true →
      ((ms.foldl (marketStep f mk) acc).2.all (fun w => 0 < dictTotalRecords w.2)) = true := by
  intro ms
  induction ms with
  | nil => exact fun acc h => h
  | cons mkt rest ih =>
    intro acc h
    show (rest.foldl (marketStep f mk) (marketStep f mk acc mkt)).2.all _ = true
    refine ih _ ?_
    unfold marketStep
    by_cases hpos : dictTotalRecords (f mkt) > 0
    · rw [if_pos hpos]
      dsimp only
      rw [List.all_append, h]
      simp [hpos]
    · rw [if_neg hpos]
      exact h

/-- C3 (amended): the announcements and credit-rating fetchers never
hand a zero-record dataset to `save_to_json` (every write they issue
has `total_records > 0`), but the event-calendar and CRD fetchers save
their dataset unconditionally — one write each, even when the dataset
has zero records. -/
theorem C3_zero_record_persistence (server : Server) (servers : String → Server)
    (fuel : Nat) (now : String) :
    ((fetch_announcements servers fuel now).2.all
        (fun w => 0 < dictTotalRecords w.2)) = true ∧
    ((fetch_credit_rating servers fuel now).2.all
        (fun w => 0 < dictTotalRecords w.2)) = true ∧
    (fetch_event_calendar server fuel now).2 =
      [("event_calendar_all.json", (fetch_event_calendar server fuel now).1)] ∧
    (fetch_crd server fuel now).2 =
      [("crd_all.json", (fetch_crd server fuel now).1)] := by
  refine ⟨?_, ?_, rfl, rfl⟩
  · exact marketStep_all_pos
      (fun market => (fetch_all_pages (servers market) "/announcements"
        (Params.single "market" market) fuel now).dict)
      (fun market => "announcements_" ++ market ++ "_all.json")
      ["equity", "sme", "debt", "mf"] ([], []) rfl
  · exact marketStep_all_pos
      (fun market => (fetch_all_pages (servers market) "/credit-rating"
        (Params.single "market" market) fuel now).dict)
      (fun market => "credit_rating_" ++ market ++ "_all.json")
      ["equity", "sme"] ([], []) rfl

/-! ### The summary builder -/

theorem addGroup_eq (pre : String) (l : List (String × Dict)) : ∀ s : Summary,
    addGroup pre l s =
      { s with
        datasets := s.datasets ++ l.map (fun md =>
          (pre ++ md.1, ⟨dictTotalRecords md.2, pre ++ md.1 ++ "_all.json"⟩)),
        total_records := s.total_records + (l.map (fun md => dictTotalRecords md.2)).sum,
        total_files := s.total_files + l.length } := by
  induction l with
  | nil =>
    intro s
    show s = _
    rcases s with ⟨a, b, c, d, e⟩
    simp
  | cons md rest ih =>
    intro s
    show addGroup pre rest (addEntry s (pre ++ md.1) (dictTotalRecords md.2)
      (pre ++ md.1 ++ "_all.json")) = _
    rw [ih]
    rcases s with ⟨a, b, c, d, e⟩
    simp [addEntry, List.append_assoc]
    omega

/-- C9: the summary lists exactly one `{records, file}` entry per
dataset present in the run's results (a dataset absent from the input
has no entry), its `total_records` is the sum of the record counts of
the listed entries, and its `total_files` is the number of listed
entries. -/
theorem C9_summary_totals (now baseUrl : String) (r : RunResults) :
    (create_summary now baseUrl r).datasets = summaryEntries r ∧
    (create_summary now baseUrl r).total_records =
      ((create_summary now baseUrl r).datasets.map (fun e => e.2.records)).sum ∧
    (create_summary now baseUrl r).total_files =
      (create_summary now baseUrl r).datasets.length := by
  rcases r with ⟨ec, ann, crd, cr⟩
  cases ec <;> cases ann <;> cases crd <;> cases cr <;>
    simp [create_summary, summaryEntries, addGroup_eq, addEntry,
      List.sum_append, List.map_append, List.map_map, Function.comp_def] <;>
    omega

end NSE
